import Mathlib

/-! Battery test firmware: settings store, command interpreter, device
lifecycle and telemetry

A shallow embedding of `src/src/main.cpp` and `include/batteryTest.h`.

Modelling conventions

* A C string is the list of its characters before the terminating NUL.
  `strcpy(dst, src)` into a field of the settings record is the assignment of
  those characters; the capacity of a field (batteryTest.h) appears in a
  statement only where the statement is about values that fit.
* A copy that overruns its destination (an over-long value, the local buffer of
  `generateMqttClientId`) has no defined behaviour in C; the embedding takes
  the text such a copy yields to be the text copied.
* The debug trace of `processCommand` hands `nme` to `strlen` before the NULL
  test. When `settings.debug` is set and the line has no name, the call ends
  there, in a load from address 0: the outcome records it as a fault.
* The global variables `settings`, `settingsAreValid` and `stayAwake`, and the
  state of the `EEPROM` object, are the fields of `State`, passed explicitly.
* `Serial` output (`showSettings`, the text of the debug trace) and `delay` are
  not modelled: they do not touch the state above.
* `ESP.restart()` is recorded as a request in the outcome of `processCommand`
  and the in-memory state is kept, so that the state a command leaves behind
  can be inspected.
* The platform is an explicit input: the number `random()` hands out and the
  value `EEPROM.commit()` returns. A call of `processCommand` draws at most one
  random number and commits at most once.
-/

namespace BatteryTest

/-! ## Constants of batteryTest.h -/

def VALID_SETTINGS_FLAG : Nat := 0xDAB0
def SSID_SIZE : Nat := 100
def PASSWORD_SIZE : Nat := 50
def ADDRESS_SIZE : Nat := 30
def USERNAME_SIZE : Nat := 50
def MQTT_CLIENTID_SIZE : Nat := 25
def MQTT_TOPIC_SIZE : Nat := 150
def MQTT_CLIENT_ID_ROOT : List Char := "BatteryTest".toList

/-! ## C library pieces used by the program -/

/-- The characters `isspace` accepts in the C locale. -/
def isspace (c : Char) : Bool :=
  c.toNat == 32 || (9 ≤ c.toNat && c.toNat ≤ 13)

/-- The characters `isdigit` accepts. -/
def isdigit (c : Char) : Bool :=
  48 ≤ c.toNat && c.toNat ≤ 57

/-- Accumulate the leading decimal digits of a string. -/
def digitsValue : List Char → Nat → Nat
  | [], acc => acc
  | c :: cs, acc => if isdigit c then digitsValue cs (acc * 10 + (c.toNat - 48)) else acc

def INT_MAX : Int := 2147483647
def INT_MIN : Int := -2147483648

/-- The function `atoi` of the C library, as `(int) strtol(s, NULL, 10)` with a
32-bit `long`: leading white space, an optional sign, the leading digits, and
saturation at the ends of the `int` range. -/
def atoi (s : List Char) : Int :=
  let t := s.dropWhile isspace
  match t with
  | [] => 0
  | c :: cs =>
    if c.toNat == 45 then max (-(digitsValue cs 0 : Int)) INT_MIN
    else if c.toNat == 43 then min (digitsValue cs 0 : Int) INT_MAX
    else min (digitsValue t 0 : Int) INT_MAX

/-- One call of `strtok` on the text that remains to be scanned: skip the
leading delimiters; if nothing is left there is no token; otherwise the token
runs to the next delimiter (or the end), and scanning resumes after that
delimiter. The result is the token and the text left for the next call. -/
def strtok (str : List Char) (delims : List Char) : Option (List Char × List Char) :=
  match str.dropWhile (fun c => delims.contains c) with
  | [] => none
  | c :: cs =>
    some ((c :: cs).takeWhile (fun d => !delims.contains d),
          ((c :: cs).dropWhile (fun d => !delims.contains d)).drop 1)

/-! ## The settings record and the global state -/

/-- The struct `conf` that is stored in EEPROM. -/
structure conf where
  validConfig : Nat
  ssid : List Char
  wifiPassword : List Char
  mqttBrokerAddress : List Char
  mqttBrokerPort : Int
  mqttUsername : List Char
  mqttPassword : List Char
  mqttTopic : List Char
  sleepTime : Int
  mqttClientId : List Char
  debug : Bool
  address : List Char
  netmask : List Char
  deriving DecidableEq, Repr

/-- The `EEPROM` object: `data` is its buffer in RAM, which `put` writes and
`get` reads; `durable` says that the last `commit` reported success, so that
flash holds `data`; `puts` counts the calls of `put`. -/
structure EEPROMClass where
  data : conf
  durable : Bool
  puts : Nat
  deriving DecidableEq, Repr

/-- The global variables of main.cpp that the settings store and the command
interpreter read and write. -/
structure State where
  settings : conf
  settingsAreValid : Bool
  stayAwake : Bool
  EEPROM : EEPROMClass
  deriving DecidableEq, Repr

/-- What the platform contributes to one call: the number `random()` hands
out if it is called, and the value `EEPROM.commit()` returns if it is
called. -/
structure Platform where
  random : Nat
  commitOk : Bool
  deriving DecidableEq, Repr

/-- The call `EEPROM.put(0, settings)`. -/
def EEPROMClass.put (e : EEPROMClass) (c : conf) : EEPROMClass :=
  { e with data := c, durable := false, puts := e.puts + 1 }

/-- The call `EEPROM.commit()`, whose result the platform decides. -/
def EEPROMClass.commit (e : EEPROMClass) (ok : Bool) : EEPROMClass × Bool :=
  ({ e with durable := ok }, ok)

/-- The function `generateMqttClientId`: the root followed by the lower-case
hexadecimal digits of `random(0xffff)`. -/
def generateMqttClientId (p : Platform) : List Char :=
  MQTT_CLIENT_ID_ROOT ++ Nat.toDigits 16 (p.random % 0xffff)

/-- The condition tested at the head of `saveSettings`. -/
def settingsComplete (c : conf) : Bool :=
  c.ssid.length > 0 &&
  c.wifiPassword.length > 0 &&
  c.mqttBrokerAddress.length > 0 &&
  c.mqttBrokerPort != 0 &&
  c.mqttTopic.length > 0 &&
  c.mqttClientId.length > 0

/-- The function `saveSettings`. -/
def saveSettings (s : State) (p : Platform) : State × Bool :=
  let s1 : State :=
    if settingsComplete s.settings then
      { s with settings := { s.settings with validConfig := VALID_SETTINGS_FLAG },
               settingsAreValid := true }
    else
      { s with settings := { s.settings with validConfig := 0 },
               settingsAreValid := false }
  let s2 : State :=
    if s1.settings.mqttClientId.length == 0 then
      { s1 with settings := { s1.settings with mqttClientId := generateMqttClientId p } }
    else s1
  let e := s2.EEPROM.put s2.settings
  let r := e.commit p.commitOk
  ({ s2 with EEPROM := r.1 }, r.2)

/-- The function `loadSettings`. -/
def loadSettings (s : State) : State :=
  let s1 : State := { s with settings := s.EEPROM.data }
  if s1.settings.validConfig == VALID_SETTINGS_FLAG then
    { s1 with settingsAreValid := true }
  else
    { s1 with settingsAreValid := false }

/-- The function `initializeSettings`. -/
def initializeSettings (s : State) (p : Platform) : State :=
  { s with settings :=
      { s.settings with
          validConfig := 0
          ssid := []
          wifiPassword := []
          mqttBrokerAddress := []
          mqttBrokerPort := 1883
          mqttUsername := []
          mqttPassword := []
          mqttTopic := []
          address := []
          netmask := "255.255.255.0".toList
          sleepTime := 10
          mqttClientId := generateMqttClientId p } }

/-! ## Command interpreter -/

/-- One of the trimming statements of `processCommand`: a last character that
is 13 or 10 is cut off. -/
def chomp (str : List Char) : List Char :=
  match str.getLast? with
  | none => str
  | some c => if c.toNat == 13 || c.toNat == 10 then str.dropLast else str

/-- The head of `processCommand`, lines 511 to 529: the two calls of `strtok`
with the delimiter "=", then the trimming, twice, of `val` and of `nme`. A
missing token (a NULL pointer) is `none`. -/
def parseCommand (cmd : List Char) : Option (List Char) × Option (List Char) :=
  match strtok cmd "=".toList with
  | none => (none, none)
  | some (nme, rest) =>
    let val : Option (List Char) := (strtok rest "=".toList).map (fun t => t.1)
    let val := val.map chomp
    let val := val.map chomp
    let nme := chomp nme
    let nme := chomp nme
    (some nme, val)

/-- What a call of `processCommand` leaves behind: the state, whether
`ESP.restart()` was called, and the value returned. When `fault` is set the
call did not return: it ended in the debug trace, on a NULL pointer, with the
state as it then stood. -/
structure Outcome where
  state : State
  restart : Bool
  result : Bool
  fault : Bool
  deriving DecidableEq, Repr

/-- The tail of `processCommand`, lines 650 to 656. -/
def finishCommand (s : State) (needRestart : Bool) : Outcome :=
  { state := s, restart := needRestart, result := true, fault := false }

/-- The body of `processCommand` from line 545 on, with `nme` and `val` as the
head of the function leaves them (`val` already pointing at the empty string
`zero` when no value was found). -/
def dispatchCommand (s : State) (nme : Option (List Char)) (val : List Char)
    (p : Platform) : Outcome :=
  match nme with
  | none => { state := s, restart := false, result := false, fault := false }
  | some nme =>
    if nme.length = 0 then { state := s, restart := false, result := false, fault := false }
    else
      let val := if val = "NULL".toList then [] else val
      if nme = "w".toList then
        finishCommand { s with stayAwake := true } false
      else if nme = "broker".toList then
        finishCommand (saveSettings { s with settings := { s.settings with mqttBrokerAddress := val } } p).1 true
      else if nme = "port".toList then
        finishCommand (saveSettings { s with settings := { s.settings with mqttBrokerPort := atoi val } } p).1 true
      else if nme = "mqttTopic".toList then
        finishCommand (saveSettings { s with settings := { s.settings with mqttTopic := val } } p).1 true
      else if nme = "user".toList then
        finishCommand (saveSettings { s with settings := { s.settings with mqttUsername := val } } p).1 true
      else if nme = "pass".toList then
        finishCommand (saveSettings { s with settings := { s.settings with mqttPassword := val } } p).1 true
      else if nme = "ssid".toList then
        finishCommand (saveSettings { s with settings := { s.settings with ssid := val } } p).1 true
      else if nme = "wifipass".toList then
        finishCommand (saveSettings { s with settings := { s.settings with wifiPassword := val } } p).1 true
      else if nme = "address".toList then
        finishCommand (saveSettings { s with settings := { s.settings with address := val } } p).1 true
      else if nme = "netmask".toList then
        finishCommand (saveSettings { s with settings := { s.settings with netmask := val } } p).1 true
      else if nme = "sleepTime".toList then
        finishCommand (saveSettings { s with settings := { s.settings with sleepTime := atoi val } } p).1 false
      else if nme = "debug".toList then
        finishCommand (saveSettings { s with settings := { s.settings with debug := decide (atoi val = 1) } } p).1 false
      else if nme = "resetmqttid".toList ∧ val = "yes".toList then
        finishCommand (saveSettings { s with settings := { s.settings with mqttClientId := generateMqttClientId p } } p).1 true
      else if nme = "factorydefaults".toList ∧ val = "yes".toList then
        finishCommand (saveSettings (initializeSettings s p) p).1 true
      else if nme = "reset".toList ∧ val = "yes".toList then
        finishCommand s true
      else
        { state := s, restart := false, result := false, fault := false }

/-- The function `processCommand`: the parse of the line, the debug trace of
lines 531 to 543, then the dispatch on the name. With `settings.debug` set the
trace evaluates `strlen(nme)` and `nme[0]`; when `nme` is NULL that is a load
from address 0, which ends the call before anything has been changed. -/
def processCommand (s : State) (cmd : List Char) (p : Platform) : Outcome :=
  let parsed := parseCommand cmd
  if s.settings.debug && parsed.1.isNone then
    { state := s, restart := false, result := false, fault := true }
  else
    dispatchCommand s parsed.1 (parsed.2.getD []) p

/-- The member initialisers of the struct `conf`: the value of `settings`
before anything is loaded. -/
def initialConf : conf :=
  { validConfig := 0, ssid := [], wifiPassword := [], mqttBrokerAddress := [],
    mqttBrokerPort := 1883, mqttUsername := [], mqttPassword := [], mqttTopic := [],
    sleepTime := 10, mqttClientId := [], debug := false, address := [], netmask := [] }

/-- The globals as their initialisers leave them, with an `EEPROM` buffer that
holds `initialConf`. -/
def initialState : State :=
  { settings := initialConf, settingsAreValid := false, stayAwake := false,
    EEPROM := { data := initialConf, durable := true, puts := 0 } }

/-- A record with every required field filled in except the client id. -/
def confWithoutClientId : conf :=
  { initialConf with
      ssid := "Home".toList, wifiPassword := "secret".toList,
      mqttBrokerAddress := "10.0.0.5".toList, mqttTopic := "sensor/".toList }

/-- The name a line is parsed to, a missing name counting as the empty one
(`processCommand` rejects both alike). -/
def commandName (cmd : List Char) : List Char := (parseCommand cmd).1.getD []

/-- The value a line is parsed to, a missing value counting as the empty one
(line 548). -/
def commandValue (cmd : List Char) : List Char := (parseCommand cmd).2.getD []

/-! ## Vocabulary of the statements -/

/-- A character that is none of the equals sign, CR and LF. -/
def plainChar (c : Char) : Prop := c ≠ '=' ∧ c.toNat ≠ 13 ∧ c.toNat ≠ 10

/-- The line endings the interpreter is fed: CR LF, a lone CR, a lone LF. -/
def lineEndings : List (List Char) :=
  [[Char.ofNat 13, Char.ofNat 10], [Char.ofNat 13], [Char.ofNat 10]]

/-- The text left when the equals signs in front of it are skipped. -/
def skipEquals (txt : List Char) : List Char :=
  txt.dropWhile (fun c => decide (c = '='))

/-- The text up to the first equals sign, all of it when there is none. -/
def upToEquals (txt : List Char) : List Char :=
  txt.takeWhile (fun c => !decide (c = '='))

/-- The text from the first equals sign on, nothing when there is none. -/
def fromEquals (txt : List Char) : List Char :=
  txt.dropWhile (fun c => !decide (c = '='))

/-! ## The dispatch table as the specification words it -/

/-- The string-setting commands of the dispatch table: the name, the field of
the record it names, and the size of that field in batteryTest.h. -/
def stringSettings : List (List Char × (conf → List Char) × Nat) :=
  [("broker".toList, conf.mqttBrokerAddress, ADDRESS_SIZE),
   ("mqttTopic".toList, conf.mqttTopic, MQTT_TOPIC_SIZE),
   ("user".toList, conf.mqttUsername, USERNAME_SIZE),
   ("pass".toList, conf.mqttPassword, PASSWORD_SIZE),
   ("ssid".toList, conf.ssid, SSID_SIZE),
   ("wifipass".toList, conf.wifiPassword, PASSWORD_SIZE),
   ("address".toList, conf.address, ADDRESS_SIZE),
   ("netmask".toList, conf.netmask, ADDRESS_SIZE)]

/-- The commands the dispatch table marks as restarting: the string settings,
`port`, and `resetmqttid`, `factorydefaults`, `reset` with the value `yes`. -/
def restartingCommand (nme val : List Char) : Prop :=
  nme ∈ ["broker".toList, "mqttTopic".toList, "user".toList, "pass".toList, "ssid".toList,
      "wifipass".toList, "address".toList, "netmask".toList, "port".toList] ∨
    (nme ∈ ["resetmqttid".toList, "factorydefaults".toList, "reset".toList] ∧
      val = "yes".toList)

/-- The commands the dispatch table marks as not restarting. -/
def quietCommand (nme : List Char) : Prop :=
  nme ∈ ["w".toList, "sleepTime".toList, "debug".toList]

/-- The entries of the dispatch table other than its last row. -/
def recognizedCommand (nme val : List Char) : Prop :=
  restartingCommand nme val ∨ quietCommand nme

/-- The state after a sequence of command lines, each with the platform values
of its call; a restart that a command requests is not carried out, so the
record in memory is kept from one line to the next. A line that ends in a
fault ends the run. -/
def runCommands (s : State) : List (List Char × Platform) → State
  | [] => s
  | (cmd, p) :: rest =>
    if (processCommand s cmd p).fault then (processCommand s cmd p).state
    else runCommands (processCommand s cmd p).state rest

/-! ## Further constants of batteryTest.h -/

def WIFI_ATTEMPTS : Nat := 25
def PUBLISH_DELAY : Nat := 400
def FULL_BATTERY : Int := 3178
def FULL_VOLTAGE : Int := 318
def JSON_STATUS_SIZE : Nat := SSID_SIZE + PASSWORD_SIZE + USERNAME_SIZE + MQTT_TOPIC_SIZE + 50

/-! ## Machine arithmetic -/

/-- The value an `int` (32 bits, two's complement) holds after a computation
whose exact result is `x`. -/
def toInt32 (x : Int) : Int := (x + 2147483648) % 4294967296 - 2147483648

/-- The value an `unsigned long` (32 bits) holds after a computation whose
exact result is `x`. -/
def toUInt32 (x : Int) : Nat := (x % 4294967296).toNat

/-! ## Telemetry -/

/-- The function `map` of the Arduino core on 32-bit `long` operands, with the
quotient truncated as C does. The core exists in two versions: the classic one
divides `delta * dividend`, the later ESP8266 one first adds half the divisor;
`rounding` selects the later one. -/
def map (rounding : Bool) (x in_min in_max out_min out_max : Int) : Int :=
  let dividend := toInt32 (out_max - out_min)
  let divisor := toInt32 (in_max - in_min)
  let delta := toInt32 (x - in_min)
  let numerator :=
    if rounding then toInt32 (toInt32 (delta * dividend) + Int.tdiv divisor 2)
    else toInt32 (delta * dividend)
  toInt32 (Int.tdiv numerator divisor + out_min)

/-- The local `vcc` of `convertToVoltage`, line 699: the reading in hundredths
of a volt, an `int`. The function returns `((float)vcc)/100.0`; that division
in floating point is not part of this embedding. -/
def convertToVoltageVcc (rounding : Bool) (raw : Int) : Int :=
  map rounding raw 0 FULL_BATTERY 0 FULL_VOLTAGE

/-! ## WiFi connection -/

/-- What the wait loop of `connectToWiFi` leaves behind: the counter
`wifiTries`, the number of times the loop body ran, and the status the last
poll returned. -/
structure WaitResult where
  wifiTries : Int
  waits : Nat
  connected : Bool
  deriving DecidableEq, Repr

/-- The loop `while (WiFi.status() != WL_CONNECTED && wifiTries-- > 0)`, entered
with `wifiTries` equal to the third argument, never negative at the head of the
loop. `status i` says whether poll number `i` of `WiFi.status()` returns
`WL_CONNECTED`; `poll` is the number of the next poll and `waits` the number of
passes through the body so far. A poll that reports the connection leaves the
loop with `wifiTries` untouched; otherwise `wifiTries` is compared with 0 and
then decremented, and the body runs if it was positive. The body (a dot on
`Serial`, `checkForCommand`, `delay`) touches neither `wifiTries` nor the
status and is left out. -/
def waitForWiFi (status : Nat → Bool) (poll : Nat) (wifiTries : Nat) (waits : Nat) :
    WaitResult :=
  match wifiTries with
  | 0 =>
    if status poll then { wifiTries := 0, waits := waits, connected := true }
    else { wifiTries := -1, waits := waits, connected := false }
  | n + 1 =>
    if status poll then { wifiTries := n + 1, waits := waits, connected := true }
    else waitForWiFi status (poll + 1) n (waits + 1)

/-- What `connectToWiFi` returns, with the number of passes through its wait
loop and the status its last poll of `WiFi.status()` returned. -/
structure ConnectResult where
  result : Bool
  waits : Nat
  connected : Bool
  deriving DecidableEq, Repr

/-- The function `connectToWiFi`: poll 0 is the test at its head, the polls
from 1 on are those of the wait loop, and the value returned is
`wifiTries > 0` once the loop has been entered. -/
def connectToWiFi (status : Nat → Bool) : ConnectResult :=
  if status 0 then { result := true, waits := 0, connected := true }
  else
    let w := waitForWiFi status 1 WIFI_ATTEMPTS 0
    { result := decide (w.wifiTries > 0), waits := w.waits, connected := w.connected }

/-! ## Device lifecycle -/

/-- The globals of main.cpp that `setup` and `loop` use: those of `State`, the
time stamp `doneTimestamp`, and the static `nextReport` of `loop`, which has no
value before the first call. -/
structure Device where
  globals : State
  doneTimestamp : Nat
  nextReport : Option Nat
  deriving DecidableEq, Repr

/-- What a call of `loop` ends with: `ESP.deepSleep` with the value of its first
argument as the `int` expression yields it, a restart requested by a command,
a fault in the command, a call of `send`, or nothing. -/
inductive LoopAction where
  | deepSleep (time_us : Int)
  | restart
  | fault
  | send
  | idle
  deriving DecidableEq, Repr

/-- The function `checkForCommand`: `line` is the command `getConfigCommand`
hands over, if the serial line has one complete; an empty one is skipped. -/
def checkForCommand (s : State) (line : Option (List Char)) (p : Platform) : Outcome :=
  match line with
  | none => { state := s, restart := false, result := false, fault := false }
  | some cmd =>
    if cmd.length > 0 then processCommand s cmd p
    else { state := s, restart := false, result := false, fault := false }

/-- The value `millis()+max(settings.sleepTime*1000,1000)` as an
`unsigned long`. -/
def nextReportAfter (now : Nat) (sleepTime : Int) : Nat :=
  toUInt32 ((now : Int) + max (toInt32 (sleepTime * 1000)) 1000)

/-- The function `setup`, from `loadSettings` on. `boot` holds the globals as
their initialisers leave them and the EEPROM; `status` is the sequence of WiFi
polls and `now` the value of `millis()` when `send` finishes. The second
component says that `setup` ended in `ESP.restart()`. The network exchange
(`otaSetup`, `reconnect`, `report`) and the commands read while waiting for
the network are not part of this model. -/
def setup (boot : State) (p : Platform) (status : Nat → Bool) (now : Nat) : Device × Bool :=
  let s := loadSettings boot
  if s.settings.mqttBrokerPort < 0 then
    ({ globals := (saveSettings (initializeSettings s p) p).1, doneTimestamp := 0,
       nextReport := none }, true)
  else if s.settingsAreValid then
    let s1 : State := if s.settings.sleepTime = 0 then { s with stayAwake := true } else s
    if (connectToWiFi status).result then
      ({ globals := s1, doneTimestamp := now, nextReport := none }, false)
    else
      ({ globals := s1, doneTimestamp := 0, nextReport := none }, false)
  else
    ({ globals := { s with stayAwake := true }, doneTimestamp := 0, nextReport := none }, false)

/-- One call of `loop` at the time `now` (the value of `millis()`), with the
command the serial line delivers, if any. A restart that the command requests
ends the call, and so does a fault in it. The network exchange of `send` and
the OTA and MQTT clients are not part of this model. -/
def loop (d : Device) (now : Nat) (line : Option (List Char)) (p : Platform) :
    Device × LoopAction :=
  let nextReport := d.nextReport.getD (nextReportAfter now d.globals.settings.sleepTime)
  let o := checkForCommand d.globals line p
  let d1 : Device := { d with globals := o.state, nextReport := some nextReport }
  if o.fault then (d1, LoopAction.fault)
  else if o.restart then (d1, LoopAction.restart)
  else if !d1.globals.stayAwake && d1.globals.settingsAreValid &&
      decide (toUInt32 ((now : Int) - (d1.doneTimestamp : Int)) > PUBLISH_DELAY) then
    (d1, LoopAction.deepSleep (toInt32 (d1.globals.settings.sleepTime * 1000000)))
  else if now > nextReport then
    ({ d1 with doneTimestamp := now,
               nextReport := some (nextReportAfter now d1.globals.settings.sleepTime) },
     LoopAction.send)
  else (d1, LoopAction.idle)

/-- A record as an operator has configured it, with a sleep time of 10
seconds. -/
def configuredConf : conf :=
  { validConfig := 0xDAB0, ssid := "Home".toList, wifiPassword := "secret".toList,
    mqttBrokerAddress := "10.0.0.5".toList, mqttBrokerPort := 1883, mqttUsername := [],
    mqttPassword := [], mqttTopic := "sensor/".toList, sleepTime := 10,
    mqttClientId := "BatteryTestff".toList, debug := false, address := [],
    netmask := "255.255.255.0".toList }

/-- The globals at power-on of a device whose EEPROM holds `configuredConf`. -/
def configuredBoot : State :=
  { initialState with EEPROM := { data := configuredConf, durable := true, puts := 0 } }

/-! ## The settings report of the MQTT handler -/

/-- The text `sprintf(tempbuf,"%d",n)` writes. -/
def sprintf_d (n : Int) : List Char :=
  if n < 0 then '-' :: Nat.toDigits 10 n.natAbs else Nat.toDigits 10 n.toNat

/-- An `IPAddress`: its four octets. -/
structure IPAddress where
  o1 : Fin 256
  o2 : Fin 256
  o3 : Fin 256
  o4 : Fin 256
  deriving DecidableEq, Repr

/-- The text `IPAddress::toString` yields: the octets in decimal, separated by
dots. -/
def IPAddress.toString (ip : IPAddress) : List Char :=
  Nat.toDigits 10 ip.o1.val ++ ".".toList ++ Nat.toDigits 10 ip.o2.val ++ ".".toList ++
    Nat.toDigits 10 ip.o3.val ++ ".".toList ++ Nat.toDigits 10 ip.o4.val

/-- The text that `incomingMqttHandler` builds in `jsonStatus` for the payload
`settings` (lines 315 to 343), one `strcpy` and then one `strcat` per line. -/
def jsonStatus (c : conf) (localIP : IPAddress) : List Char :=
  "\x7b".toList ++
  "\"broker\":\"".toList ++
  c.mqttBrokerAddress ++
  "\", \"port\":".toList ++
  sprintf_d c.mqttBrokerPort ++
  ", \"mqttTopic\":\"".toList ++
  c.mqttTopic ++
  "\", \"user\":\"".toList ++
  c.mqttUsername ++
  "\", \"pass\":\"".toList ++
  c.mqttPassword ++
  "\", \"ssid\":\"".toList ++
  c.ssid ++
  "\", \"wifipass\":\"".toList ++
  c.wifiPassword ++
  "\", \"sleepTime\":\"".toList ++
  sprintf_d c.sleepTime ++
  "\", \"mqttClientId\":\"".toList ++
  c.mqttClientId ++
  "\", \"address\":\"".toList ++
  c.address ++
  "\", \"netmask\":\"".toList ++
  c.netmask ++
  "\",\"IP Address\":\"".toList ++
  localIP.toString ++
  "\"\x7d".toList

/-- Every string of the record, with its terminating NUL, fits the array that
the struct `conf` declares for it. -/
def confFits (c : conf) : Prop :=
  c.ssid.length < SSID_SIZE ∧ c.wifiPassword.length < PASSWORD_SIZE ∧
  c.mqttBrokerAddress.length < ADDRESS_SIZE ∧ c.mqttUsername.length < USERNAME_SIZE ∧
  c.mqttPassword.length < PASSWORD_SIZE ∧ c.mqttTopic.length < MQTT_TOPIC_SIZE ∧
  c.mqttClientId.length < MQTT_CLIENTID_SIZE ∧ c.address.length < ADDRESS_SIZE ∧
  c.netmask.length < ADDRESS_SIZE

/-- A record whose strings all have the greatest length their arrays allow. -/
def fullLengthConf : conf :=
  { validConfig := 0xDAB0, ssid := List.replicate 99 's', wifiPassword := List.replicate 49 'w',
    mqttBrokerAddress := List.replicate 29 'b', mqttBrokerPort := 1883,
    mqttUsername := List.replicate 49 'u', mqttPassword := List.replicate 49 'p',
    mqttTopic := List.replicate 149 't', sleepTime := 10,
    mqttClientId := List.replicate 24 'c', debug := false,
    address := List.replicate 29 'a', netmask := List.replicate 29 'n' }

/-! ## The settings store: theorems -/

theorem generateMqttClientId_ne_nil (p : Platform) : generateMqttClientId p ≠ [] := by
  simp [generateMqttClientId, MQTT_CLIENT_ID_ROOT]

theorem settingsComplete_iff (c : conf) :
    settingsComplete c = true ↔
      (c.ssid ≠ [] ∧ c.wifiPassword ≠ [] ∧ c.mqttBrokerAddress ≠ [] ∧
        c.mqttTopic ≠ [] ∧ c.mqttClientId ≠ [] ∧ c.mqttBrokerPort ≠ 0) := by
  simp only [settingsComplete, Bool.and_eq_true, decide_eq_true_eq, bne_iff_ne, ne_eq,
    gt_iff_lt, List.length_pos]
  tauto

theorem saveSettings_validConfig (s : State) (p : Platform) :
    (saveSettings s p).1.settings.validConfig =
      (if settingsComplete s.settings then VALID_SETTINGS_FLAG else 0) := by
  unfold saveSettings
  by_cases h : settingsComplete s.settings = true <;>
    by_cases h2 : s.settings.mqttClientId.length = 0 <;> simp [h, h2]

theorem saveSettings_settingsAreValid (s : State) (p : Platform) :
    (saveSettings s p).1.settingsAreValid = settingsComplete s.settings := by
  unfold saveSettings
  by_cases h : settingsComplete s.settings = true <;>
    by_cases h2 : s.settings.mqttClientId.length = 0 <;> simp [h, h2]

theorem saveSettings_data (s : State) (p : Platform) :
    (saveSettings s p).1.EEPROM.data = (saveSettings s p).1.settings := by
  simp [saveSettings, EEPROMClass.put, EEPROMClass.commit]

/-- C1: `saveSettings` sets the sentinel to 0xDAB0 and `settingsAreValid` to
true exactly when, on entry, ssid, wifi password, broker address, topic and
client id are non-empty and the broker port is not 0; otherwise it sets the
sentinel to 0 and `settingsAreValid` to false. -/
theorem saveSettings_sentinel_iff_complete_at_entry (s : State) (p : Platform) :
    (((saveSettings s p).1.settings.validConfig = 0xDAB0 ∧
        (saveSettings s p).1.settingsAreValid = true) ↔
      (s.settings.ssid ≠ [] ∧ s.settings.wifiPassword ≠ [] ∧
        s.settings.mqttBrokerAddress ≠ [] ∧ s.settings.mqttTopic ≠ [] ∧
        s.settings.mqttClientId ≠ [] ∧ s.settings.mqttBrokerPort ≠ 0)) ∧
    (¬ (s.settings.ssid ≠ [] ∧ s.settings.wifiPassword ≠ [] ∧
        s.settings.mqttBrokerAddress ≠ [] ∧ s.settings.mqttTopic ≠ [] ∧
        s.settings.mqttClientId ≠ [] ∧ s.settings.mqttBrokerPort ≠ 0) →
      (saveSettings s p).1.settings.validConfig = 0 ∧
        (saveSettings s p).1.settingsAreValid = false) := by
  rw [← settingsComplete_iff, saveSettings_validConfig, saveSettings_settingsAreValid]
  by_cases h : settingsComplete s.settings = true <;> simp [h, VALID_SETTINGS_FLAG]

/-- C2: when the client id is empty on entry, `saveSettings` clears the
sentinel and the validity flag before it generates the client id, so the
record it persists has a client id and a sentinel of 0, also when every other
required field is filled in. -/
theorem saveSettings_empty_clientId_persisted_invalid (s : State) (p : Platform)
    (hid : s.settings.mqttClientId = []) :
    (saveSettings s p).1.EEPROM.data.validConfig = 0 ∧
      (saveSettings s p).1.settingsAreValid = false ∧
      (saveSettings s p).1.EEPROM.data.mqttClientId = generateMqttClientId p ∧
      (saveSettings s p).1.EEPROM.data.mqttClientId ≠ [] ∧
      (saveSettings s p).1.EEPROM.data.ssid = s.settings.ssid ∧
      (saveSettings s p).1.EEPROM.data.wifiPassword = s.settings.wifiPassword ∧
      (saveSettings s p).1.EEPROM.data.mqttBrokerAddress = s.settings.mqttBrokerAddress ∧
      (saveSettings s p).1.EEPROM.data.mqttTopic = s.settings.mqttTopic ∧
      (saveSettings s p).1.EEPROM.data.mqttBrokerPort = s.settings.mqttBrokerPort := by
  have hc : settingsComplete s.settings = false := by
    simp [settingsComplete, hid]
  have hne := generateMqttClientId_ne_nil p
  simp [saveSettings, EEPROMClass.put, EEPROMClass.commit, hc, hid, hne]

/-- C2 at a record that is complete except for its client id: the persisted
record has all six required fields filled in and a sentinel of 0. -/
theorem saveSettings_empty_clientId_persisted_invalid_witness :
    confWithoutClientId.mqttClientId = [] ∧
    (saveSettings { initialState with settings := confWithoutClientId } ⟨255, true⟩).1.EEPROM.data.validConfig = 0 ∧
    settingsComplete
      (saveSettings { initialState with settings := confWithoutClientId } ⟨255, true⟩).1.EEPROM.data = true :=
  ⟨rfl,
   (saveSettings_empty_clientId_persisted_invalid
      { initialState with settings := confWithoutClientId } ⟨255, true⟩ rfl).1,
   by decide⟩

theorem delims_contains (c : Char) : ("=".toList).contains c = decide (c = '=') := by
  show (['='] : List Char).contains c = decide (c = '=')
  by_cases h : c = '=' <;> simp [h]

theorem takeWhile_append_stop {q : Char → Bool} (n rest : List Char) (d : Char)
    (hn : ∀ c ∈ n, q c = true) (hd : q d = false) :
    (n ++ d :: rest).takeWhile q = n := by
  induction n with
  | nil => simp [List.takeWhile, hd]
  | cons a t ih =>
    have ha : q a = true := hn a (List.mem_cons_self a t)
    have ht : ∀ c ∈ t, q c = true := fun c hc => hn c (List.mem_cons_of_mem a hc)
    simp [List.takeWhile, ha, ih ht]

theorem dropWhile_append_stop {q : Char → Bool} (n rest : List Char) (d : Char)
    (hn : ∀ c ∈ n, q c = true) (hd : q d = false) :
    (n ++ d :: rest).dropWhile q = d :: rest := by
  induction n with
  | nil => simp [List.dropWhile, hd]
  | cons a t ih =>
    have ha : q a = true := hn a (List.mem_cons_self a t)
    have ht : ∀ c ∈ t, q c = true := fun c hc => hn c (List.mem_cons_of_mem a hc)
    simp [List.dropWhile, ha, ih ht]

theorem takeWhile_all {q : Char → Bool} (n : List Char) (hn : ∀ c ∈ n, q c = true) :
    n.takeWhile q = n := by
  induction n with
  | nil => rfl
  | cons a t ih =>
    have ha : q a = true := hn a (List.mem_cons_self a t)
    have ht : ∀ c ∈ t, q c = true := fun c hc => hn c (List.mem_cons_of_mem a hc)
    simp [List.takeWhile, ha, ih ht]

theorem dropWhile_all {q : Char → Bool} (n : List Char) (hn : ∀ c ∈ n, q c = true) :
    n.dropWhile q = [] := by
  induction n with
  | nil => rfl
  | cons a t ih =>
    have ha : q a = true := hn a (List.mem_cons_self a t)
    have ht : ∀ c ∈ t, q c = true := fun c hc => hn c (List.mem_cons_of_mem a hc)
    simp [List.dropWhile, ha, ih ht]

/-- The first token of a line whose text up to the first equals sign is not
empty: that text, with the scan resuming after the equals sign. -/
theorem strtok_first (n rest : List Char) (hne : n ≠ []) (hn : ∀ c ∈ n, c ≠ '=') :
    strtok (n ++ '=' :: rest) "=".toList = some (n, rest) := by
  obtain ⟨a, t, rfl⟩ := List.exists_cons_of_ne_nil hne
  have ha : a ≠ '=' := hn a (List.mem_cons_self a t)
  have hq : ∀ c ∈ a :: t, (!("=".toList).contains c) = true := by
    intro c hc
    simp [delims_contains, hn c hc]
  have hd : (!("=".toList).contains '=') = false := by simp [delims_contains]
  have h1 : ((a :: t) ++ '=' :: rest).dropWhile (fun c => ("=".toList).contains c)
      = (a :: t) ++ '=' :: rest := by
    simp [List.dropWhile, delims_contains, ha]
  have h2 := takeWhile_append_stop (q := fun d => !("=".toList).contains d) (a :: t) rest '=' hq hd
  have h3 := dropWhile_append_stop (q := fun d => !("=".toList).contains d) (a :: t) rest '=' hq hd
  unfold strtok
  rw [h1]
  simp only [List.cons_append] at h2 h3 ⊢
  rw [h2, h3]
  rfl

/-- The token of a text without an equals sign: nothing if the text is empty,
else the whole text. -/
theorem strtok_plain (v : List Char) (hv : ∀ c ∈ v, c ≠ '=') :
    strtok v "=".toList = if v = [] then none else some (v, []) := by
  cases v with
  | nil => rfl
  | cons a t =>
    have ha : a ≠ '=' := hv a (List.mem_cons_self a t)
    have hq : ∀ c ∈ a :: t, (!("=".toList).contains c) = true := by
      intro c hc
      simp [delims_contains, hv c hc]
    have h1 : (a :: t).dropWhile (fun c => ("=".toList).contains c) = a :: t := by
      simp [List.dropWhile, delims_contains, ha]
    have h2 := takeWhile_all (q := fun d => !("=".toList).contains d) (a :: t) hq
    have h3 := dropWhile_all (q := fun d => !("=".toList).contains d) (a :: t) hq
    unfold strtok
    rw [h1]
    simp only [h2, h3]
    simp

theorem chomp_append_eol (v : List Char) (c : Char) (hc : c.toNat = 13 ∨ c.toNat = 10) :
    chomp (v ++ [c]) = v := by
  unfold chomp
  rcases hc with h | h <;> simp [List.getLast?_append, h]

theorem chomp_of_last_plain (v : List Char) (hv : ∀ c ∈ v, c.toNat ≠ 13 ∧ c.toNat ≠ 10) :
    chomp v = v := by
  unfold chomp
  cases hl : v.getLast? with
  | none => rfl
  | some c =>
    have hmem : c ∈ v := List.mem_of_getLast?_eq_some hl
    simp [(hv c hmem).1, (hv c hmem).2]

/-- Two lines with the same name and the same value, a missing value counting
as the empty one, are processed alike. -/
theorem processCommand_congr (s : State) (p : Platform) (a b : List Char)
    (h1 : (parseCommand a).1 = (parseCommand b).1)
    (h2 : (parseCommand a).2.getD [] = (parseCommand b).2.getD []) :
    processCommand s a p = processCommand s b p := by
  unfold processCommand
  simp only [h1, h2]

/-- With `settings.debug` set, a line without a name ends in the debug trace. -/
theorem processCommand_fault (s : State) (cmd : List Char) (p : Platform)
    (hd : s.settings.debug = true) (hn : (parseCommand cmd).1 = none) :
    processCommand s cmd p =
      { state := s, restart := false, result := false, fault := true } := by
  unfold processCommand
  simp [hd, hn]

/-- With `settings.debug` clear, or a name in the line, the debug trace is
passed and the line is dispatched. -/
theorem processCommand_no_fault (s : State) (cmd : List Char) (p : Platform)
    (h : s.settings.debug = false ∨ (parseCommand cmd).1 ≠ none) :
    processCommand s cmd p =
      dispatchCommand s (parseCommand cmd).1 ((parseCommand cmd).2.getD []) p := by
  unfold processCommand
  rcases h with h | h
  · simp [h]
  · simp [h]

theorem processCommand_of_name (s : State) (cmd : List Char) (p : Platform) (n : List Char)
    (h : (parseCommand cmd).1 = some n) :
    processCommand s cmd p = dispatchCommand s (some n) ((parseCommand cmd).2.getD []) p := by
  rw [processCommand_no_fault s cmd p (Or.inr (by rw [h]; simp)), h]

/-- The parse of a line made of a plain name, an equals sign and a text without
an equals sign. -/
theorem parseCommand_assignment (name v : List Char) (hne : name ≠ [])
    (hname : ∀ c ∈ name, c ≠ '=') (hv : ∀ c ∈ v, c ≠ '=') :
    parseCommand (name ++ '=' :: v) =
      (some (chomp (chomp name)), if v = [] then none else some (chomp (chomp v))) := by
  unfold parseCommand
  rw [strtok_first name v hne hname]
  simp only [strtok_plain v hv]
  by_cases h : v = [] <;> simp [h]

theorem chomp_chomp_plain (v : List Char) (hv : ∀ c ∈ v, plainChar c) :
    chomp (chomp v) = v := by
  have h : ∀ c ∈ v, c.toNat ≠ 13 ∧ c.toNat ≠ 10 := fun c hc => (hv c hc).2
  rw [chomp_of_last_plain v h, chomp_of_last_plain v h]

theorem chomp_chomp_lineEnding (v tail : List Char) (hv : ∀ c ∈ v, plainChar c)
    (ht : tail ∈ lineEndings) : chomp (chomp (v ++ tail)) = v := by
  have h : ∀ c ∈ v, c.toNat ≠ 13 ∧ c.toNat ≠ 10 := fun c hc => (hv c hc).2
  have h13 : (Char.ofNat 13).toNat = 13 := by decide
  have h10 : (Char.ofNat 10).toNat = 10 := by decide
  simp only [lineEndings, List.mem_cons, List.mem_singleton, List.not_mem_nil, or_false] at ht
  rcases ht with rfl | rfl | rfl
  · have e : v ++ [Char.ofNat 13, Char.ofNat 10] = (v ++ [Char.ofNat 13]) ++ [Char.ofNat 10] := by
      simp
    rw [e, chomp_append_eol _ _ (Or.inr h10), chomp_append_eol _ _ (Or.inl h13)]
  · rw [chomp_append_eol _ _ (Or.inl h13), chomp_of_last_plain v h]
  · rw [chomp_append_eol _ _ (Or.inr h10), chomp_of_last_plain v h]

theorem lineEnding_no_equals (tail : List Char) (ht : tail ∈ lineEndings) :
    tail ≠ [] ∧ ∀ c ∈ tail, c ≠ '=' := by
  simp only [lineEndings, List.mem_cons, List.mem_singleton, List.not_mem_nil, or_false] at ht
  rcases ht with rfl | rfl | rfl <;> refine ⟨by simp, ?_⟩ <;> intro c hc <;>
    simp only [List.mem_cons, List.mem_singleton, List.not_mem_nil, or_false] at hc
  · rcases hc with rfl | rfl <;> decide
  · subst hc; decide
  · subst hc; decide

/-! ## The command interpreter: theorems -/

/-- C4: for a non-empty name and a value, neither holding an equals sign, CR or
LF, the line `name=value` followed by CR LF, by a lone CR or by a lone LF is
parsed to the same name and value as `name=value`, a missing value counting as
the empty one, and from every state it leaves the same state, the same restart
request and the same return value. -/
theorem processCommand_line_ending (name value : List Char) (hne : name ≠ [])
    (hname : ∀ c ∈ name, plainChar c) (hvalue : ∀ c ∈ value, plainChar c)
    (s : State) (p : Platform) (tail : List Char) (ht : tail ∈ lineEndings) :
    (parseCommand (name ++ '=' :: (value ++ tail))).1 = some name ∧
    (parseCommand (name ++ '=' :: value)).1 = some name ∧
    (parseCommand (name ++ '=' :: (value ++ tail))).2.getD [] = value ∧
    (parseCommand (name ++ '=' :: value)).2.getD [] = value ∧
    processCommand s (name ++ '=' :: (value ++ tail)) p =
      processCommand s (name ++ '=' :: value) p := by
  have hn : ∀ c ∈ name, c ≠ '=' := fun c hc => (hname c hc).1
  have hv : ∀ c ∈ value, c ≠ '=' := fun c hc => (hvalue c hc).1
  have htl := lineEnding_no_equals tail ht
  have hvt : ∀ c ∈ value ++ tail, c ≠ '=' := by
    intro c hc
    rcases List.mem_append.mp hc with h | h
    · exact hv c h
    · exact htl.2 c h
  have hvtne : value ++ tail ≠ [] := by simp [htl.1]
  have e1 := parseCommand_assignment name (value ++ tail) hne hn hvt
  have e2 := parseCommand_assignment name value hne hn hv
  rw [chomp_chomp_plain name hname, chomp_chomp_lineEnding value tail hvalue ht,
    if_neg hvtne] at e1
  rw [chomp_chomp_plain name hname, chomp_chomp_plain value hvalue] at e2
  have a1 : (parseCommand (name ++ '=' :: (value ++ tail))).1 = some name := by rw [e1]
  have a2 : (parseCommand (name ++ '=' :: value)).1 = some name := by rw [e2]
  have b1 : (parseCommand (name ++ '=' :: (value ++ tail))).2.getD [] = value := by
    rw [e1]; rfl
  have b2 : (parseCommand (name ++ '=' :: value)).2.getD [] = value := by
    rw [e2]
    by_cases h : value = [] <;> simp [h]
  exact ⟨a1, a2, b1, b2, processCommand_congr s p _ _ (a1.trans a2.symm) (b1.trans b2.symm)⟩

/-- C4 at the line `ssid=Home` followed by CR LF. -/
theorem processCommand_line_ending_witness :
    processCommand initialState ("ssid".toList ++ '=' :: ("Home".toList ++ [Char.ofNat 13, Char.ofNat 10]))
        ⟨255, true⟩ =
      processCommand initialState ("ssid".toList ++ '=' :: "Home".toList) ⟨255, true⟩ :=
  (processCommand_line_ending "ssid".toList "Home".toList (by decide)
    (by unfold plainChar; decide) (by unfold plainChar; decide)
    initialState ⟨255, true⟩ [Char.ofNat 13, Char.ofNat 10] (by decide)).2.2.2.2

theorem saveSettings_settings (s : State) (p : Platform) :
    (saveSettings s p).1.settings =
      { s.settings with
          validConfig := if settingsComplete s.settings then VALID_SETTINGS_FLAG else 0
          mqttClientId :=
            if s.settings.mqttClientId = [] then generateMqttClientId p
            else s.settings.mqttClientId } := by
  unfold saveSettings
  by_cases h : settingsComplete s.settings = true <;>
    by_cases h2 : s.settings.mqttClientId = [] <;> simp [h, h2]

theorem saveSettings_puts (s : State) (p : Platform) :
    (saveSettings s p).1.EEPROM.puts = s.EEPROM.puts + 1 := by
  unfold saveSettings
  by_cases h : settingsComplete s.settings = true <;>
    by_cases h2 : s.settings.mqttClientId = [] <;>
    simp [h, h2, EEPROMClass.put, EEPROMClass.commit]

theorem saveSettings_stayAwake (s : State) (p : Platform) :
    (saveSettings s p).1.stayAwake = s.stayAwake := by
  unfold saveSettings
  by_cases h : settingsComplete s.settings = true <;>
    by_cases h2 : s.settings.mqttClientId = [] <;> simp [h, h2]

/-- What the dispatch does for a string-setting name, whatever the value. -/
theorem dispatchCommand_stringSetting (e : List Char × (conf → List Char) × Nat)
    (he : e ∈ stringSettings) (s : State) (val : List Char) (p : Platform) :
    e.2.1 (dispatchCommand s (some e.1) val p).state.settings =
        (if val = "NULL".toList then [] else val) ∧
      (dispatchCommand s (some e.1) val p).restart = true ∧
      (dispatchCommand s (some e.1) val p).result = true ∧
      (dispatchCommand s (some e.1) val p).state.EEPROM.puts = s.EEPROM.puts + 1 ∧
      (dispatchCommand s (some e.1) val p).state.EEPROM.data =
        (dispatchCommand s (some e.1) val p).state.settings := by
  simp only [stringSettings, List.mem_cons, List.mem_singleton, List.not_mem_nil, or_false] at he
  rcases he with rfl | rfl | rfl | rfl | rfl | rfl | rfl | rfl <;>
    simp [dispatchCommand, finishCommand, saveSettings_settings, saveSettings_puts,
      saveSettings_data]

theorem stringSettings_name_plain (e : List Char × (conf → List Char) × Nat)
    (he : e ∈ stringSettings) : e.1 ≠ [] ∧ ∀ c ∈ e.1, plainChar c := by
  simp only [stringSettings, List.mem_cons, List.mem_singleton, List.not_mem_nil, or_false] at he
  rcases he with rfl | rfl | rfl | rfl | rfl | rfl | rfl | rfl <;>
    exact ⟨by decide, by unfold plainChar; decide⟩

/-- The name of a line that starts with a plain, non-empty text and an equals
sign is that text, whatever follows. -/
theorem parseCommand_name (name rest : List Char) (hne : name ≠ [])
    (hname : ∀ c ∈ name, plainChar c) :
    (parseCommand (name ++ '=' :: rest)).1 = some name := by
  unfold parseCommand
  rw [strtok_first name rest hne (fun c hc => (hname c hc).1)]
  simp [chomp_chomp_plain name hname]

/-- C5: for each string-setting command and every state, the line
`<name>=NULL` leaves the field the command names empty (not holding the text
NULL), saves the record once and requests a restart, and a line that gives the
same command any other text after the equals sign is answered with the same
return value and restart request and saves as many times. -/
theorem processCommand_NULL_clears (e : List Char × (conf → List Char) × Nat)
    (he : e ∈ stringSettings) (s : State) (p : Platform) :
    e.2.1 (processCommand s (e.1 ++ "=NULL".toList) p).state.settings = [] ∧
    e.2.1 (processCommand s (e.1 ++ "=NULL".toList) p).state.settings ≠ "NULL".toList ∧
    (processCommand s (e.1 ++ "=NULL".toList) p).restart = true ∧
    (processCommand s (e.1 ++ "=NULL".toList) p).result = true ∧
    (processCommand s (e.1 ++ "=NULL".toList) p).state.EEPROM.puts = s.EEPROM.puts + 1 ∧
    (processCommand s (e.1 ++ "=NULL".toList) p).state.EEPROM.data =
      (processCommand s (e.1 ++ "=NULL".toList) p).state.settings ∧
    (∀ rest : List Char,
      (processCommand s (e.1 ++ '=' :: rest) p).restart =
          (processCommand s (e.1 ++ "=NULL".toList) p).restart ∧
        (processCommand s (e.1 ++ '=' :: rest) p).result =
          (processCommand s (e.1 ++ "=NULL".toList) p).result ∧
        (processCommand s (e.1 ++ '=' :: rest) p).state.EEPROM.puts =
          (processCommand s (e.1 ++ "=NULL".toList) p).state.EEPROM.puts) := by
  obtain ⟨hne, hplain⟩ := stringSettings_name_plain e he
  have hN : e.1 ++ "=NULL".toList = e.1 ++ '=' :: "NULL".toList := rfl
  have hparse : parseCommand (e.1 ++ '=' :: "NULL".toList) =
      (some e.1, some "NULL".toList) := by
    rw [parseCommand_assignment e.1 "NULL".toList hne (fun c hc => (hplain c hc).1) (by decide),
      chomp_chomp_plain e.1 hplain, chomp_chomp_plain "NULL".toList (by unfold plainChar; decide)]
    simp
  have hd := dispatchCommand_stringSetting e he s "NULL".toList p
  have hrun : processCommand s (e.1 ++ "=NULL".toList) p =
      dispatchCommand s (some e.1) "NULL".toList p := by
    rw [hN, processCommand_of_name s _ p e.1 (by rw [hparse]), hparse]
    rfl
  rw [hrun]
  simp only [if_true] at hd
  refine ⟨hd.1, ?_, hd.2.1, hd.2.2.1, hd.2.2.2.1, hd.2.2.2.2, ?_⟩
  · rw [hd.1]; decide
  · intro rest
    have hr : processCommand s (e.1 ++ '=' :: rest) p =
        dispatchCommand s (some e.1) ((parseCommand (e.1 ++ '=' :: rest)).2.getD []) p :=
      processCommand_of_name s _ p e.1 (parseCommand_name e.1 rest hne hplain)
    have hd2 := dispatchCommand_stringSetting e he s
      ((parseCommand (e.1 ++ '=' :: rest)).2.getD []) p
    rw [hr, hd2.2.1, hd2.2.2.1, hd2.2.2.2.1, hd.2.1, hd.2.2.1, hd.2.2.2.1]
    exact ⟨rfl, rfl, rfl⟩

/-- C5 at the command `ssid` and the initial state. -/
theorem processCommand_NULL_clears_witness :
    (("ssid".toList, conf.ssid, SSID_SIZE) : List Char × (conf → List Char) × Nat) ∈ stringSettings ∧
    (processCommand initialState ("ssid".toList ++ "=NULL".toList) ⟨255, true⟩).state.settings.ssid = [] :=
  ⟨by simp [stringSettings],
   (processCommand_NULL_clears ("ssid".toList, conf.ssid, SSID_SIZE) (by simp [stringSettings])
      initialState ⟨255, true⟩).1⟩

/-- The parse of a line that starts with a non-empty text without an equals
sign, then an equals sign: the value is the next token of what follows. -/
theorem parseCommand_general (name rest : List Char) (hne : name ≠ [])
    (hname : ∀ c ∈ name, c ≠ '=') :
    parseCommand (name ++ '=' :: rest) =
      (some (chomp (chomp name)),
        (((strtok rest "=".toList).map (fun t => t.1)).map chomp).map chomp) := by
  unfold parseCommand
  rw [strtok_first name rest hne hname]

theorem strtok_skip_leading (txt : List Char) :
    strtok ('=' :: txt) "=".toList = strtok txt "=".toList := by
  unfold strtok
  simp [List.dropWhile, delims_contains]

theorem parseCommand_skip_leading (cmd : List Char) :
    parseCommand ('=' :: cmd) = parseCommand cmd := by
  unfold parseCommand
  rw [strtok_skip_leading]

theorem strtok_token_cut (v rest : List Char) (hne : v ≠ []) (hv : ∀ c ∈ v, c ≠ '=') :
    (strtok (v ++ '=' :: rest) "=".toList).map (fun t => t.1) =
      (strtok v "=".toList).map (fun t => t.1) := by
  rw [strtok_first v rest hne hv, strtok_plain v hv, if_neg hne]
  rfl

theorem delims_isEquals :
    (fun c => ("=".toList).contains c) = (fun c => decide (c = '=')) :=
  funext delims_contains

theorem delims_notEquals :
    (fun d => !("=".toList).contains d) = (fun c => !decide (c = '=')) := by
  funext c
  rw [delims_contains]

theorem fromEquals_head (txt : List Char) :
    fromEquals txt = [] ∨ ∃ t, fromEquals txt = '=' :: t := by
  unfold fromEquals
  induction txt with
  | nil => exact Or.inl rfl
  | cons a t ih =>
    by_cases h : a = '='
    · right
      exact ⟨t, by simp [List.dropWhile, h]⟩
    · simpa [List.dropWhile, h] using ih

theorem skipEquals_drop_fromEquals (txt : List Char) :
    skipEquals ((fromEquals txt).drop 1) = skipEquals (fromEquals txt) := by
  rcases fromEquals_head txt with h | ⟨t, h⟩
  · rw [h]; rfl
  · rw [h]
    simp [skipEquals, List.dropWhile]

/-- One call of `strtok` with the delimiter "=": no token when nothing but
equals signs is left, else the text between them and the next equals sign. -/
theorem strtok_tokens (txt : List Char) :
    strtok txt "=".toList =
      if skipEquals txt = [] then none
      else some (upToEquals (skipEquals txt), (fromEquals (skipEquals txt)).drop 1) := by
  unfold strtok
  rw [delims_isEquals, delims_notEquals]
  show (match skipEquals txt with
    | [] => none
    | c :: cs => some (upToEquals (c :: cs), (fromEquals (c :: cs)).drop 1)) = _
  cases skipEquals txt with
  | nil => rfl
  | cons c cs => simp

/-- The name and the value of every line, in terms of its equals signs. -/
theorem parseCommand_tokens (cmd : List Char) :
    ((parseCommand cmd).1 = none ↔ skipEquals cmd = []) ∧
    commandName cmd = chomp (chomp (upToEquals (skipEquals cmd))) ∧
    commandValue cmd =
      chomp (chomp (upToEquals (skipEquals (fromEquals (skipEquals cmd))))) := by
  unfold commandName commandValue parseCommand
  rw [strtok_tokens cmd]
  by_cases h : skipEquals cmd = []
  · rw [if_pos h, h]
    exact ⟨⟨fun _ => rfl, fun _ => rfl⟩, rfl, rfl⟩
  · rw [if_neg h]
    dsimp only
    rw [strtok_tokens, skipEquals_drop_fromEquals]
    refine ⟨⟨fun hc => by simp at hc, fun hc => absurd hc h⟩, rfl, ?_⟩
    by_cases h2 : skipEquals (fromEquals (skipEquals cmd)) = []
    · rw [if_pos h2, h2]
      rfl
    · rw [if_neg h2]
      rfl

theorem skipEquals_eq_nil_iff (cmd : List Char) :
    skipEquals cmd = [] ↔ ∀ c ∈ cmd, c = '=' := by
  unfold skipEquals
  rw [List.dropWhile_eq_nil_iff]
  simp

/-- C6, as amended: name and value are the first two tokens that `strtok`
cuts at equals signs. For every line, the equals signs in front of it are
skipped, the name is the text from there to the next equals sign, the value is
the text after the equals signs that follow the name, up to the next equals
sign, each trimmed of up to two trailing CR or LF, a missing one counting as
empty; a line of nothing but equals signs has no name and is not accepted.
Hence a line is processed as the line without an equals sign in front of it,
`name==v` as `name=v`, and `name=v=rest` as `name=v`. For a string-setting
command and a value without an equals sign that fits the field, the line
`<name>=v` stores v, trimmed of up to two trailing CR or LF and emptied if that
is the word NULL. -/
theorem processCommand_two_tokens (e : List Char × (conf → List Char) × Nat)
    (he : e ∈ stringSettings) (v : List Char) (hv : ∀ c ∈ v, c ≠ '=')
    (_hfit : v.length < e.2.2) (s : State) (p : Platform) :
    e.2.1 (processCommand s (e.1 ++ '=' :: v) p).state.settings =
        (if chomp (chomp v) = "NULL".toList then [] else chomp (chomp v)) ∧
    (∀ cmd : List Char,
      commandName cmd = chomp (chomp (upToEquals (skipEquals cmd))) ∧
      commandValue cmd =
        chomp (chomp (upToEquals (skipEquals (fromEquals (skipEquals cmd))))) ∧
      ((parseCommand cmd).1 = none ↔ ∀ c ∈ cmd, c = '=') ∧
      ((∀ c ∈ cmd, c = '=') →
        (processCommand s cmd p).result = false ∧ (processCommand s cmd p).state = s) ∧
      processCommand s ('=' :: cmd) p = processCommand s cmd p) ∧
    (∀ name w rest : List Char, name ≠ [] → (∀ c ∈ name, c ≠ '=') →
      w ≠ [] → (∀ c ∈ w, c ≠ '=') →
      processCommand s (name ++ '=' :: (w ++ '=' :: rest)) p =
        processCommand s (name ++ '=' :: w) p) ∧
    (∀ name rest : List Char, name ≠ [] → (∀ c ∈ name, c ≠ '=') →
      processCommand s (name ++ '=' :: '=' :: rest) p =
        processCommand s (name ++ '=' :: rest) p) := by
  obtain ⟨hne, hplain⟩ := stringSettings_name_plain e he
  have hn : ∀ c ∈ e.1, c ≠ '=' := fun c hc => (hplain c hc).1
  refine ⟨?_, ?_, ?_, ?_⟩
  · have hparse := parseCommand_assignment e.1 v hne hn hv
    rw [chomp_chomp_plain e.1 hplain] at hparse
    have hval : (parseCommand (e.1 ++ '=' :: v)).2.getD [] = chomp (chomp v) := by
      rw [hparse]
      by_cases h : v = []
      · subst h; rfl
      · simp [h]
    rw [processCommand_of_name s _ p e.1 (by rw [hparse]), hval]
    exact (dispatchCommand_stringSetting e he s (chomp (chomp v)) p).1
  · intro cmd
    obtain ⟨t1, t2, t3⟩ := parseCommand_tokens cmd
    have hnone : (parseCommand cmd).1 = none ↔ ∀ c ∈ cmd, c = '=' :=
      t1.trans (skipEquals_eq_nil_iff cmd)
    refine ⟨t2, t3, hnone, ?_, ?_⟩
    · intro hall
      have hnm := hnone.mpr hall
      by_cases hd : s.settings.debug = true
      · rw [processCommand_fault s cmd p hd hnm]
        exact ⟨rfl, rfl⟩
      · rw [processCommand_no_fault s cmd p (Or.inl (by simpa using hd)), hnm]
        exact ⟨rfl, rfl⟩
    · unfold processCommand
      rw [parseCommand_skip_leading]
  · intro name w rest hname hfree hw hwfree
    apply processCommand_congr
    · rw [parseCommand_general name _ hname hfree, parseCommand_general name _ hname hfree]
    · rw [parseCommand_general name _ hname hfree, parseCommand_general name _ hname hfree,
        strtok_token_cut w rest hw hwfree]
  · intro name rest hname hfree
    apply processCommand_congr
    · rw [parseCommand_general name _ hname hfree, parseCommand_general name _ hname hfree]
    · rw [parseCommand_general name _ hname hfree, parseCommand_general name _ hname hfree,
        strtok_skip_leading]

/-- C6 at the command `pass` and the value `hunter2`. -/
theorem processCommand_two_tokens_witness :
    (("pass".toList, conf.mqttPassword, PASSWORD_SIZE) : List Char × (conf → List Char) × Nat)
        ∈ stringSettings ∧
    (∀ c ∈ "hunter2".toList, c ≠ '=') ∧ "hunter2".toList.length < PASSWORD_SIZE ∧
    (processCommand initialState ("pass".toList ++ '=' :: "hunter2".toList)
        ⟨255, true⟩).state.settings.mqttPassword = "hunter2".toList :=
  ⟨by simp [stringSettings], by decide, by decide,
   (processCommand_two_tokens ("pass".toList, conf.mqttPassword, PASSWORD_SIZE)
      (by simp [stringSettings]) "hunter2".toList (by decide) (by decide)
      initialState ⟨255, true⟩).1⟩

/-- C6 as stated fails: the value of `pass=a=b` is cut at its equals sign, so
`a` is stored and not `a=b`; the value of `pass==b` loses its leading equals
sign; and the line `=w` has the name `w`, not an empty name. -/
theorem processCommand_value_cut_at_equals :
    "a=b".toList.length < PASSWORD_SIZE ∧
    commandValue "pass=a=b".toList = "a".toList ∧
    (processCommand initialState "pass=a=b".toList ⟨255, true⟩).state.settings.mqttPassword
      = "a".toList ∧
    (processCommand initialState "pass=a=b".toList ⟨255, true⟩).state.settings.mqttPassword
      ≠ "a=b".toList ∧
    (processCommand initialState "pass==b".toList ⟨255, true⟩).state.settings.mqttPassword
      = "b".toList ∧
    (processCommand initialState "pass==b".toList ⟨255, true⟩).state.settings.mqttPassword
      ≠ "=b".toList ∧
    commandName "=w".toList = "w".toList ∧
    commandName "=w".toList ≠ [] ∧
    (processCommand initialState "=w".toList ⟨255, true⟩).result = true := by
  decide

theorem nullified_eq_yes (val : List Char) :
    (if val = "NULL".toList then [] else val) = "yes".toList ↔ val = "yes".toList := by
  by_cases h : val = "NULL".toList
  · subst h; decide
  · rw [if_neg h]

/-- The return value, the restart request, the effect of `w` and the rejection
of everything else, read off the dispatch for every name and value. -/
theorem dispatchCommand_table (s : State) (nme : Option (List Char)) (val : List Char)
    (p : Platform) :
    ((dispatchCommand s nme val p).result = true ↔ recognizedCommand (nme.getD []) val) ∧
    ((dispatchCommand s nme val p).restart = true ↔ restartingCommand (nme.getD []) val) ∧
    (nme.getD [] = "w".toList → (dispatchCommand s nme val p).state = { s with stayAwake := true }) ∧
    (¬ recognizedCommand (nme.getD []) val →
      dispatchCommand s nme val p = { state := s, restart := false, result := false, fault := false }) := by
  cases nme with
  | none =>
    simp [dispatchCommand, recognizedCommand, restartingCommand, quietCommand]
  | some n =>
    simp only [Option.getD_some]
    by_cases hnil : n = []
    · subst hnil
      simp [dispatchCommand, recognizedCommand, restartingCommand, quietCommand]
    by_cases h0 : n = "w".toList
    · subst h0
      simp [dispatchCommand, finishCommand, recognizedCommand, restartingCommand, quietCommand]
    by_cases h1 : n = "broker".toList
    · subst h1
      simp [dispatchCommand, finishCommand, recognizedCommand, restartingCommand, quietCommand]
    by_cases h2 : n = "port".toList
    · subst h2
      simp [dispatchCommand, finishCommand, recognizedCommand, restartingCommand, quietCommand]
    by_cases h3 : n = "mqttTopic".toList
    · subst h3
      simp [dispatchCommand, finishCommand, recognizedCommand, restartingCommand, quietCommand]
    by_cases h4 : n = "user".toList
    · subst h4
      simp [dispatchCommand, finishCommand, recognizedCommand, restartingCommand, quietCommand]
    by_cases h5 : n = "pass".toList
    · subst h5
      simp [dispatchCommand, finishCommand, recognizedCommand, restartingCommand, quietCommand]
    by_cases h6 : n = "ssid".toList
    · subst h6
      simp [dispatchCommand, finishCommand, recognizedCommand, restartingCommand, quietCommand]
    by_cases h7 : n = "wifipass".toList
    · subst h7
      simp [dispatchCommand, finishCommand, recognizedCommand, restartingCommand, quietCommand]
    by_cases h8 : n = "address".toList
    · subst h8
      simp [dispatchCommand, finishCommand, recognizedCommand, restartingCommand, quietCommand]
    by_cases h9 : n = "netmask".toList
    · subst h9
      simp [dispatchCommand, finishCommand, recognizedCommand, restartingCommand, quietCommand]
    by_cases h10 : n = "sleepTime".toList
    · subst h10
      simp [dispatchCommand, finishCommand, recognizedCommand, restartingCommand, quietCommand]
    by_cases h11 : n = "debug".toList
    · subst h11
      simp [dispatchCommand, finishCommand, recognizedCommand, restartingCommand, quietCommand]
    by_cases c0 : n = "resetmqttid".toList
    · subst c0
      by_cases hy : val = "yes".toList
      · subst hy
        simp [dispatchCommand, finishCommand, recognizedCommand, restartingCommand, quietCommand]
      · have hy2 := (nullified_eq_yes val).not.mpr hy
        simp_all [dispatchCommand, finishCommand, recognizedCommand, restartingCommand, quietCommand]
    by_cases c1 : n = "factorydefaults".toList
    · subst c1
      by_cases hy : val = "yes".toList
      · subst hy
        simp [dispatchCommand, finishCommand, recognizedCommand, restartingCommand, quietCommand]
      · have hy2 := (nullified_eq_yes val).not.mpr hy
        simp_all [dispatchCommand, finishCommand, recognizedCommand, restartingCommand, quietCommand]
    by_cases c2 : n = "reset".toList
    · subst c2
      by_cases hy : val = "yes".toList
      · subst hy
        simp [dispatchCommand, finishCommand, recognizedCommand, restartingCommand, quietCommand]
      · have hy2 := (nullified_eq_yes val).not.mpr hy
        simp_all [dispatchCommand, finishCommand, recognizedCommand, restartingCommand, quietCommand]
    simp_all [dispatchCommand, finishCommand, recognizedCommand, restartingCommand, quietCommand]

theorem quietCommand_not_restarting (nme val : List Char) (h : quietCommand nme) :
    ¬ restartingCommand nme val := by
  simp only [quietCommand, List.mem_cons, List.mem_singleton, List.not_mem_nil, or_false] at h
  rcases h with rfl | rfl | rfl <;> simp [restartingCommand]

/-- C7: `processCommand` returns true exactly for the entries of the dispatch
table, and it requests a restart exactly for broker, mqttTopic, user, pass,
ssid, wifipass, address, netmask, port, and resetmqttid, factorydefaults and
reset with the value yes; w, sleepTime and debug return true without a restart
request; w leaves everything but the stay-awake flag as it was, the EEPROM
included. -/
theorem processCommand_restart_table (s : State) (cmd : List Char) (p : Platform) :
    ((processCommand s cmd p).result = true ↔
      recognizedCommand (commandName cmd) (commandValue cmd)) ∧
    ((processCommand s cmd p).restart = true ↔
      restartingCommand (commandName cmd) (commandValue cmd)) ∧
    (quietCommand (commandName cmd) →
      (processCommand s cmd p).result = true ∧ (processCommand s cmd p).restart = false) ∧
    (commandName cmd = "w".toList →
      (processCommand s cmd p).state = { s with stayAwake := true } ∧
      (processCommand s cmd p).state.EEPROM = s.EEPROM ∧
      (processCommand s cmd p).state.settings = s.settings ∧
      (processCommand s cmd p).state.settingsAreValid = s.settingsAreValid) := by
  by_cases hf : s.settings.debug = true ∧ (parseCommand cmd).1 = none
  · have hname : commandName cmd = [] := by
      unfold commandName
      rw [hf.2]
      rfl
    rw [processCommand_fault s cmd p hf.1 hf.2, hname]
    simp [recognizedCommand, restartingCommand, quietCommand]
  have h := dispatchCommand_table s (parseCommand cmd).1 ((parseCommand cmd).2.getD []) p
  have hrun : processCommand s cmd p =
      dispatchCommand s (parseCommand cmd).1 ((parseCommand cmd).2.getD []) p := by
    apply processCommand_no_fault
    by_cases hd : s.settings.debug = true
    · exact Or.inr (fun hn => hf ⟨hd, hn⟩)
    · exact Or.inl (by simpa using hd)
  rw [hrun]
  refine ⟨h.1, h.2.1, ?_, ?_⟩
  · intro hq
    refine ⟨h.1.mpr (Or.inr hq), ?_⟩
    have hnr := quietCommand_not_restarting _ (commandValue cmd) hq
    cases hr : (dispatchCommand s (parseCommand cmd).1 ((parseCommand cmd).2.getD []) p).restart
    · rfl
    · exact absurd (h.2.1.mp hr) hnr
  · intro hw
    have hs := h.2.2.1 hw
    rw [hs]
    exact ⟨rfl, rfl, rfl, rfl⟩

/-- C8: a line whose name is empty or missing, or whose name and value are no
entry of the dispatch table (resetmqttid, factorydefaults and reset with a
value other than yes included), makes `processCommand` return false without a
restart request and with the whole state, the EEPROM included, as it was,
provided `settings.debug` is clear or the line has a name. With
`settings.debug` set and a line without a name, one that is empty or made of
equals signs only, the call does not return: the debug trace of lines 531 to
543 passes the NULL `nme` to `strlen` before line 550 tests it. -/
theorem processCommand_unknown_rejected_or_fault (s : State) (cmd : List Char) (p : Platform)
    (h : commandName cmd = [] ∨ ¬ recognizedCommand (commandName cmd) (commandValue cmd)) :
    ((s.settings.debug = false ∨ (parseCommand cmd).1 ≠ none) →
      processCommand s cmd p =
        { state := s, restart := false, result := false, fault := false }) ∧
    ((s.settings.debug = true ∧ (parseCommand cmd).1 = none) →
      processCommand s cmd p =
        { state := s, restart := false, result := false, fault := true }) ∧
    ((parseCommand cmd).1 = none ↔ ∀ c ∈ cmd, c = '=') := by
  have hnot : ¬ recognizedCommand (commandName cmd) (commandValue cmd) := by
    rcases h with h | h
    · rw [h]
      simp [recognizedCommand, restartingCommand, quietCommand]
    · exact h
  refine ⟨?_, ?_, (parseCommand_tokens cmd).1.trans (skipEquals_eq_nil_iff cmd)⟩
  · intro hclean
    rw [processCommand_no_fault s cmd p hclean]
    exact (dispatchCommand_table s (parseCommand cmd).1 ((parseCommand cmd).2.getD []) p).2.2.2
      hnot
  · intro hf
    exact processCommand_fault s cmd p hf.1 hf.2

/-- C8 on a run: the command `debug=1` sets `settings.debug` without a restart,
and the line `=` that follows has no name: the call ends in the debug trace.
With `settings.debug` clear the same line is rejected. -/
theorem processCommand_unknown_rejected_or_fault_witness :
    (commandName "=".toList = [] ∨
      ¬ recognizedCommand (commandName "=".toList) (commandValue "=".toList)) ∧
    (processCommand initialState "debug=1".toList ⟨255, true⟩).restart = false ∧
    (processCommand initialState "debug=1".toList ⟨255, true⟩).state.settings.debug = true ∧
    processCommand (processCommand initialState "debug=1".toList ⟨255, true⟩).state
        "=".toList ⟨255, true⟩ =
      { state := (processCommand initialState "debug=1".toList ⟨255, true⟩).state,
        restart := false, result := false, fault := true } ∧
    processCommand initialState "=".toList ⟨255, true⟩ =
      { state := initialState, restart := false, result := false, fault := false } :=
  ⟨Or.inl (by decide), by decide, by decide,
   (processCommand_unknown_rejected_or_fault
      (processCommand initialState "debug=1".toList ⟨255, true⟩).state "=".toList ⟨255, true⟩
      (Or.inl (by decide))).2.1 ⟨by decide, by decide⟩,
   (processCommand_unknown_rejected_or_fault initialState "=".toList ⟨255, true⟩
      (Or.inl (by decide))).1 (Or.inl (by decide))⟩

/-! ## Reset to defaults and the configuration scenario -/

theorem settingsComplete_initializeSettings (s : State) (p : Platform) :
    settingsComplete (initializeSettings s p).settings = false := by
  simp [settingsComplete, initializeSettings]

theorem saveSettings_initializeSettings (s : State) (p q : Platform) :
    (saveSettings (initializeSettings s p) q).1.settings = (initializeSettings s p).settings := by
  rw [saveSettings_settings, settingsComplete_initializeSettings]
  have hne : (initializeSettings s p).settings.mqttClientId ≠ [] :=
    generateMqttClientId_ne_nil p
  simp only [if_neg hne]
  rfl

/-- C9: from every state, `initializeSettings` leaves a record with the
sentinel 0, empty ssid, wifi password, broker address, broker username, broker
password, topic and static address, port 1883, netmask 255.255.255.0 and a
client id made of the root and a new random number, hence not empty; the
record is not complete, so the `saveSettings` that follows it at both call
sites keeps the record and sets `settingsAreValid` to false, as the command
`factorydefaults=yes` does. -/
theorem initializeSettings_defaults (s : State) (p : Platform) :
    (initializeSettings s p).settings.validConfig = 0 ∧
    (initializeSettings s p).settings.ssid = [] ∧
    (initializeSettings s p).settings.wifiPassword = [] ∧
    (initializeSettings s p).settings.mqttBrokerAddress = [] ∧
    (initializeSettings s p).settings.mqttUsername = [] ∧
    (initializeSettings s p).settings.mqttPassword = [] ∧
    (initializeSettings s p).settings.mqttTopic = [] ∧
    (initializeSettings s p).settings.address = [] ∧
    (initializeSettings s p).settings.mqttBrokerPort = 1883 ∧
    (initializeSettings s p).settings.netmask = "255.255.255.0".toList ∧
    (initializeSettings s p).settings.mqttClientId =
      "BatteryTest".toList ++ Nat.toDigits 16 (p.random % 0xffff) ∧
    (initializeSettings s p).settings.mqttClientId ≠ [] ∧
    settingsComplete (initializeSettings s p).settings = false ∧
    (∀ q : Platform,
      (saveSettings (initializeSettings s p) q).1.settings = (initializeSettings s p).settings ∧
      (saveSettings (initializeSettings s p) q).1.settingsAreValid = false) ∧
    (processCommand s "factorydefaults=yes".toList p).state.settings =
      (initializeSettings s p).settings ∧
    (processCommand s "factorydefaults=yes".toList p).state.settingsAreValid = false := by
  have hparse : parseCommand "factorydefaults=yes".toList =
      (some "factorydefaults".toList, some "yes".toList) := by decide
  have hrun : processCommand s "factorydefaults=yes".toList p =
      finishCommand (saveSettings (initializeSettings s p) p).1 true := by
    unfold processCommand
    rw [hparse]
    simp [dispatchCommand]
  have hsave : ∀ q : Platform,
      (saveSettings (initializeSettings s p) q).1.settings = (initializeSettings s p).settings ∧
      (saveSettings (initializeSettings s p) q).1.settingsAreValid = false := by
    intro q
    refine ⟨saveSettings_initializeSettings s p q, ?_⟩
    rw [saveSettings_settingsAreValid, settingsComplete_initializeSettings]
  refine ⟨rfl, rfl, rfl, rfl, rfl, rfl, rfl, rfl, rfl, rfl, rfl,
    generateMqttClientId_ne_nil p, settingsComplete_initializeSettings s p, hsave, ?_, ?_⟩
  · rw [hrun]
    exact (hsave p).1
  · rw [hrun]
    exact (hsave p).2

theorem processCommand_ssid_Home (s : State) (p : Platform) :
    processCommand s "ssid=Home".toList p =
      finishCommand (saveSettings
        { s with settings := { s.settings with ssid := "Home".toList } } p).1 true := by
  have hparse : parseCommand "ssid=Home".toList = (some "ssid".toList, some "Home".toList) := by
    decide
  unfold processCommand
  rw [hparse]
  simp [dispatchCommand]

theorem processCommand_wifipass_secret (s : State) (p : Platform) :
    processCommand s "wifipass=secret".toList p =
      finishCommand (saveSettings
        { s with settings := { s.settings with wifiPassword := "secret".toList } } p).1 true := by
  have hparse : parseCommand "wifipass=secret".toList =
      (some "wifipass".toList, some "secret".toList) := by decide
  unfold processCommand
  rw [hparse]
  simp [dispatchCommand]

theorem processCommand_broker_address (s : State) (p : Platform) :
    processCommand s "broker=10.0.0.5".toList p =
      finishCommand (saveSettings
        { s with settings := { s.settings with mqttBrokerAddress := "10.0.0.5".toList } } p).1
        true := by
  have hparse : parseCommand "broker=10.0.0.5".toList =
      (some "broker".toList, some "10.0.0.5".toList) := by decide
  unfold processCommand
  rw [hparse]
  simp [dispatchCommand]

theorem processCommand_mqttTopic_sensor (s : State) (p : Platform) :
    processCommand s "mqttTopic=sensor/".toList p =
      finishCommand (saveSettings
        { s with settings := { s.settings with mqttTopic := "sensor/".toList } } p).1 true := by
  have hparse : parseCommand "mqttTopic=sensor/".toList =
      (some "mqttTopic".toList, some "sensor/".toList) := by decide
  unfold processCommand
  rw [hparse]
  simp [dispatchCommand]

/-- C10: from the record `initializeSettings` produces, the lines `ssid=Home`,
`wifipass=secret`, `broker=10.0.0.5` and `mqttTopic=sensor/`, each returning
true with a restart request that is not carried out, leave the sentinel 0 and
`settingsAreValid` false after the first, the second and the third save, and
the sentinel 0xDAB0, in memory and in the persisted record, and
`settingsAreValid` true after the fourth. -/
theorem configuration_scenario_valid_after_fourth (s : State) (p0 p1 p2 p3 p4 : Platform) :
    ((runCommands (initializeSettings s p0) [("ssid=Home".toList, p1)]).settings.validConfig = 0 ∧
      (runCommands (initializeSettings s p0) [("ssid=Home".toList, p1)]).settingsAreValid = false) ∧
    ((runCommands (initializeSettings s p0)
        [("ssid=Home".toList, p1), ("wifipass=secret".toList, p2)]).settings.validConfig = 0 ∧
      (runCommands (initializeSettings s p0)
        [("ssid=Home".toList, p1), ("wifipass=secret".toList, p2)]).settingsAreValid = false) ∧
    ((runCommands (initializeSettings s p0)
        [("ssid=Home".toList, p1), ("wifipass=secret".toList, p2),
         ("broker=10.0.0.5".toList, p3)]).settings.validConfig = 0 ∧
      (runCommands (initializeSettings s p0)
        [("ssid=Home".toList, p1), ("wifipass=secret".toList, p2),
         ("broker=10.0.0.5".toList, p3)]).settingsAreValid = false) ∧
    ((runCommands (initializeSettings s p0)
        [("ssid=Home".toList, p1), ("wifipass=secret".toList, p2),
         ("broker=10.0.0.5".toList, p3), ("mqttTopic=sensor/".toList, p4)]).settings.validConfig
          = 0xDAB0 ∧
      (runCommands (initializeSettings s p0)
        [("ssid=Home".toList, p1), ("wifipass=secret".toList, p2),
         ("broker=10.0.0.5".toList, p3), ("mqttTopic=sensor/".toList, p4)]).EEPROM.data.validConfig
          = 0xDAB0 ∧
      (runCommands (initializeSettings s p0)
        [("ssid=Home".toList, p1), ("wifipass=secret".toList, p2),
         ("broker=10.0.0.5".toList, p3), ("mqttTopic=sensor/".toList, p4)]).settingsAreValid
          = true) ∧
    ((processCommand (initializeSettings s p0) "ssid=Home".toList p1).result = true ∧
      (processCommand (initializeSettings s p0) "ssid=Home".toList p1).restart = true) := by
  have hid : 0 < (generateMqttClientId p0).length :=
    List.length_pos.mpr (generateMqttClientId_ne_nil p0)
  simp only [runCommands, processCommand_ssid_Home, processCommand_wifipass_secret,
    processCommand_broker_address, processCommand_mqttTopic_sensor, finishCommand,
    Bool.false_eq_true, if_false,
    saveSettings_data, saveSettings_validConfig, saveSettings_settingsAreValid,
    saveSettings_settings]
  simp [settingsComplete, initializeSettings, hid, generateMqttClientId_ne_nil p0,
    VALID_SETTINGS_FLAG]

/-! ## Telemetry: theorems -/

theorem toInt32_of_inRange (x : Int) (hlo : -2147483648 ≤ x) (hhi : x ≤ 2147483647) :
    toInt32 x = x := by
  unfold toInt32
  omega

/-- Truncated division by the full-battery count, in terms of the division
that rounds down. -/
theorem tdiv_fullBattery (x : Int) :
    Int.tdiv x 3178 = if 0 ≤ x then x / 3178 else -((-x) / 3178) := by
  by_cases h : 0 ≤ x
  · rw [if_pos h, Int.tdiv_eq_ediv h (by decide)]
  · rw [if_neg h]
    have hx : x = -(-x) := by omega
    have hn : (0 : Int) ≤ -x := by omega
    conv_lhs => rw [hx]
    rw [Int.neg_tdiv, Int.tdiv_eq_ediv hn (by decide)]

/-- Inside the range where the 32-bit product does not overflow, `vcc` is the
truncated quotient of the exact product. -/
theorem convertToVoltageVcc_exact (rounding : Bool) (raw : Int)
    (hlo : -2147483648 ≤ raw * 318)
    (hhi : raw * 318 + (if rounding then 1589 else 0) ≤ 2147483647) :
    convertToVoltageVcc rounding raw =
      Int.tdiv (raw * 318 + (if rounding then 1589 else 0)) 3178 := by
  have h318 : toInt32 (318 - 0) = 318 := by decide
  have h3178 : toInt32 (3178 - 0) = 3178 := by decide
  have hhalf : Int.tdiv 3178 2 = 1589 := by decide
  have hraw : toInt32 (raw - 0) = raw := by
    apply (by intro h; simpa using h : toInt32 raw = raw → toInt32 (raw - 0) = raw)
    apply toInt32_of_inRange <;> cases rounding <;> simp at hhi <;> omega
  have hprod : toInt32 (raw * 318) = raw * 318 := by
    apply toInt32_of_inRange <;> cases rounding <;> simp at hhi <;> omega
  unfold convertToVoltageVcc map
  simp only [FULL_BATTERY, FULL_VOLTAGE, h318, h3178, hhalf, hraw, hprod]
  cases rounding
  · simp only [Bool.false_eq_true, if_false, add_zero] at hhi ⊢
    apply toInt32_of_inRange <;> rw [tdiv_fullBattery] <;> split_ifs <;> omega
  · simp only [if_true, add_zero] at hhi ⊢
    rw [toInt32_of_inRange (raw * 318 + 1589) (by omega) hhi]
    apply toInt32_of_inRange <;> rw [tdiv_fullBattery] <;> split_ifs <;> omega

/-- C12: for raw readings a ≤ b in the range where the 32-bit product of `map`
does not overflow, the integer hundredths of a volt that `convertToVoltage`
computes for a are at most those for b, and at the raw reading 3178 they are
exactly 318, the hundredths of 3.18 V. This holds for both versions of
`map`. -/
theorem convertToVoltage_monotone (rounding : Bool) (a b : Int) (hab : a ≤ b)
    (hlo : -2147483648 ≤ a * 318)
    (hhi : b * 318 + (if rounding then 1589 else 0) ≤ 2147483647) :
    convertToVoltageVcc rounding a ≤ convertToVoltageVcc rounding b ∧
    convertToVoltageVcc rounding FULL_BATTERY = FULL_VOLTAGE := by
  have hvcc : convertToVoltageVcc rounding a ≤ convertToVoltageVcc rounding b := by
    rw [convertToVoltageVcc_exact rounding a hlo (by cases rounding <;> simp at hhi ⊢ <;> omega),
      convertToVoltageVcc_exact rounding b (by omega) hhi, tdiv_fullBattery, tdiv_fullBattery]
    cases rounding <;> simp only [Bool.false_eq_true, if_false, if_true, add_zero] <;>
      split_ifs <;> omega
  have hfull : convertToVoltageVcc rounding 3178 = 318 := by
    cases rounding <;> decide
  exact ⟨hvcc, hfull⟩

/-- C12 at the readings 0 and 3178 with the classic `map`. -/
theorem convertToVoltage_monotone_witness :
    convertToVoltageVcc false 0 ≤ convertToVoltageVcc false 3178 ∧
    convertToVoltageVcc false 3178 = 318 :=
  ⟨(convertToVoltage_monotone false 0 3178 (by decide) (by decide) (by decide)).1,
   (convertToVoltage_monotone false 0 3178 (by decide) (by decide) (by decide)).2⟩

/-! ## WiFi connection: theorems -/

/-- The wait loop entered with `n` tries left: the body runs at most `n` more
times, the counter ends positive exactly when one of the next `n` polls reports
the connection, and its last poll is the first one that does, if there is one
among the next `n + 1`. -/
theorem waitForWiFi_spec (status : Nat → Bool) (n : Nat) :
    ∀ poll waits : Nat,
      (waitForWiFi status poll n waits).waits ≤ waits + n ∧
      ((waitForWiFi status poll n waits).wifiTries > 0 ↔
        ∃ j, j < n ∧ status (poll + j) = true) ∧
      ((waitForWiFi status poll n waits).connected = true ↔
        ∃ j, j ≤ n ∧ status (poll + j) = true) := by
  induction n with
  | zero =>
    intro poll waits
    unfold waitForWiFi
    by_cases h : status poll = true
    · simp [h]
    · simp [h]
  | succ n ih =>
    intro poll waits
    unfold waitForWiFi
    by_cases h : status poll = true
    · simp only [h, if_true]
      refine ⟨by omega, ?_, ?_⟩
      · constructor
        · intro _
          exact ⟨0, by omega, by simpa using h⟩
        · intro _
          have : (0 : Int) ≤ (n : Int) := Int.ofNat_nonneg n
          show ((n : Int) + 1) > 0
          omega
      · constructor
        · intro _
          exact ⟨0, by omega, by simpa using h⟩
        · intro _
          trivial
    · simp only [h, Bool.false_eq_true, if_false]
      obtain ⟨h1, h2, h3⟩ := ih (poll + 1) (waits + 1)
      refine ⟨by omega, ?_, ?_⟩
      · rw [h2]
        constructor
        · rintro ⟨j, hj, hs⟩
          exact ⟨j + 1, by omega, by rw [← hs]; congr 1; omega⟩
        · rintro ⟨j, hj, hs⟩
          cases j with
          | zero => exact absurd hs (by simpa using h)
          | succ k => exact ⟨k, by omega, by rw [← hs]; congr 1; omega⟩
      · rw [h3]
        constructor
        · rintro ⟨j, hj, hs⟩
          exact ⟨j + 1, by omega, by rw [← hs]; congr 1; omega⟩
        · rintro ⟨j, hj, hs⟩
          cases j with
          | zero => exact absurd hs (by simpa using h)
          | succ k => exact ⟨k, by omega, by rw [← hs]; congr 1; omega⟩

/-- C15: the wait loop of `connectToWiFi` runs at most 25 times and a result
of true means the last poll reported the connection, but the result is true
only if one of the polls 0 to 25 reports it: when the connection is first
reported by poll 26, the one that follows the 25th wait, the function leaves
the loop on that report and returns false. -/
theorem connectToWiFi_false_on_last_poll :
    (∀ status : Nat → Bool,
      (connectToWiFi status).waits ≤ WIFI_ATTEMPTS ∧
      ((connectToWiFi status).result = true → (connectToWiFi status).connected = true) ∧
      ((connectToWiFi status).result = true ↔ ∃ j, j ≤ 25 ∧ status j = true) ∧
      ((connectToWiFi status).connected = true ↔ ∃ j, j ≤ 26 ∧ status j = true)) ∧
    (connectToWiFi (fun i => decide (26 ≤ i))).waits = 25 ∧
    (connectToWiFi (fun i => decide (26 ≤ i))).connected = true ∧
    (connectToWiFi (fun i => decide (26 ≤ i))).result = false := by
  refine ⟨?_, by decide, by decide, by decide⟩
  intro status
  have hres : (connectToWiFi status).result = true ↔ ∃ j, j ≤ 25 ∧ status j = true := by
    unfold connectToWiFi
    by_cases h : status 0 = true
    · simp only [h, if_true]
      exact ⟨fun _ => ⟨0, by omega, h⟩, fun _ => trivial⟩
    · simp only [h, Bool.false_eq_true, if_false, decide_eq_true_eq, WIFI_ATTEMPTS]
      rw [(waitForWiFi_spec status 25 1 0).2.1]
      constructor
      · rintro ⟨j, hj, hs⟩
        exact ⟨1 + j, by omega, hs⟩
      · rintro ⟨j, hj, hs⟩
        cases j with
        | zero => exact absurd hs h
        | succ k => exact ⟨k, by omega, by rw [← hs]; congr 1; omega⟩
  have hcon : (connectToWiFi status).connected = true ↔ ∃ j, j ≤ 26 ∧ status j = true := by
    unfold connectToWiFi
    by_cases h : status 0 = true
    · simp only [h, if_true]
      exact ⟨fun _ => ⟨0, by omega, h⟩, fun _ => trivial⟩
    · simp only [h, Bool.false_eq_true, if_false, WIFI_ATTEMPTS]
      rw [(waitForWiFi_spec status 25 1 0).2.2]
      constructor
      · rintro ⟨j, hj, hs⟩
        exact ⟨1 + j, by omega, hs⟩
      · rintro ⟨j, hj, hs⟩
        cases j with
        | zero => exact absurd hs h
        | succ k => exact ⟨k, by omega, by rw [← hs]; congr 1; omega⟩
  refine ⟨?_, ?_, hres, hcon⟩
  · unfold connectToWiFi
    by_cases h : status 0 = true
    · simp [h]
    · simp only [h, Bool.false_eq_true, if_false, WIFI_ATTEMPTS]
      have := (waitForWiFi_spec status 25 1 0).1
      omega
  · intro hr
    obtain ⟨j, hj, hs⟩ := hres.mp hr
    exact hcon.mpr ⟨j, by omega, hs⟩

/-! ## Device lifecycle: theorems -/

/-- The sleep branch of `loop`: with no command pending, the stay-awake flag
clear, valid settings and the publish delay over, `loop` calls `ESP.deepSleep`
with the 32-bit product of the sleep time and 1000000, and leaves the globals
as they were. -/
theorem loop_sleep_branch (d : Device) (now : Nat) (p : Platform)
    (hawake : d.globals.stayAwake = false) (hvalid : d.globals.settingsAreValid = true)
    (hdelay : PUBLISH_DELAY < toUInt32 ((now : Int) - (d.doneTimestamp : Int))) :
    (loop d now none p).2 =
        LoopAction.deepSleep (toInt32 (d.globals.settings.sleepTime * 1000000)) ∧
      (loop d now none p).1.globals = d.globals := by
  simp [loop, checkForCommand, hawake, hvalid, hdelay]

/-- C11: a call of `loop` from a state whose sleep time is 0 while the
stay-awake flag is clear, the settings are valid and the publish delay is over
enters deep sleep, with a duration of 0. `setup` sets the stay-awake flag for a
sleep time of 0, the command `sleepTime` does not, so such a state is reached
by that command at run time. -/
theorem loop_deepSleep_with_sleepTime_zero (d : Device) (now : Nat) (p : Platform)
    (hawake : d.globals.stayAwake = false) (hvalid : d.globals.settingsAreValid = true)
    (hzero : d.globals.settings.sleepTime = 0)
    (hdelay : PUBLISH_DELAY < toUInt32 ((now : Int) - (d.doneTimestamp : Int))) :
    (loop d now none p).2 = LoopAction.deepSleep 0 ∧
      (loop d now none p).1.globals.settings.sleepTime = 0 := by
  obtain ⟨h1, h2⟩ := loop_sleep_branch d now p hawake hvalid hdelay
  rw [h1, h2, hzero]
  exact ⟨rfl, rfl⟩

/-- C11 on a run: a configured device boots with a sleep time of 10 and joins
the network at once; the command `sleepTime=0` arrives in a call of `loop`
100 ms later, is saved without a restart and leaves the stay-awake flag clear;
the next call of `loop` enters deep sleep. -/
theorem loop_deepSleep_with_sleepTime_zero_witness :
    (setup configuredBoot ⟨255, true⟩ (fun _ => true) 1000).2 = false ∧
    (loop (setup configuredBoot ⟨255, true⟩ (fun _ => true) 1000).1 1100
      (some "sleepTime=0".toList) ⟨255, true⟩).2 = LoopAction.idle ∧
    (loop (setup configuredBoot ⟨255, true⟩ (fun _ => true) 1000).1 1100
      (some "sleepTime=0".toList) ⟨255, true⟩).1.globals.settings.sleepTime = 0 ∧
    (loop (loop (setup configuredBoot ⟨255, true⟩ (fun _ => true) 1000).1 1100
      (some "sleepTime=0".toList) ⟨255, true⟩).1 2000 none ⟨255, true⟩).2
        = LoopAction.deepSleep 0 :=
  ⟨by decide, by decide, by decide,
   (loop_deepSleep_with_sleepTime_zero
      (loop (setup configuredBoot ⟨255, true⟩ (fun _ => true) 1000).1 1100
        (some "sleepTime=0".toList) ⟨255, true⟩).1 2000 ⟨255, true⟩
      (by decide) (by decide) (by decide) (by decide)).1⟩

/-- C13: when `loop` enters deep sleep with a positive sleep time, the
duration it passes is the 32-bit product of the sleep time and 1000000, and
that product is the sleep time in microseconds only up to 2147 seconds; from
2148 seconds on it has wrapped around. -/
theorem loop_deepSleep_duration (d : Device) (now : Nat) (p : Platform)
    (hawake : d.globals.stayAwake = false) (hvalid : d.globals.settingsAreValid = true)
    (hdelay : PUBLISH_DELAY < toUInt32 ((now : Int) - (d.doneTimestamp : Int)))
    (hpos : 0 < d.globals.settings.sleepTime)
    (hmax : d.globals.settings.sleepTime ≤ 2147483647) :
    (loop d now none p).2 =
        LoopAction.deepSleep (toInt32 (d.globals.settings.sleepTime * 1000000)) ∧
      (toInt32 (d.globals.settings.sleepTime * 1000000) =
          d.globals.settings.sleepTime * 1000000 ↔
        d.globals.settings.sleepTime ≤ 2147) := by
  refine ⟨(loop_sleep_branch d now p hawake hvalid hdelay).1, ?_⟩
  unfold toInt32
  omega

/-- C13 on a run: a configured device takes the command `sleepTime=5000`, and
the next call of `loop` asks for a deep sleep of 705032704, not of 5000000000
microseconds. -/
theorem loop_deepSleep_duration_witness :
    (loop (setup configuredBoot ⟨255, true⟩ (fun _ => true) 1000).1 1100
      (some "sleepTime=5000".toList) ⟨255, true⟩).1.globals.settings.sleepTime = 5000 ∧
    (loop (loop (setup configuredBoot ⟨255, true⟩ (fun _ => true) 1000).1 1100
      (some "sleepTime=5000".toList) ⟨255, true⟩).1 2000 none ⟨255, true⟩).2
        = LoopAction.deepSleep 705032704 ∧
    (705032704 : Int) ≠ 5000 * 1000000 :=
  ⟨by decide,
   (loop_deepSleep_duration
      (loop (setup configuredBoot ⟨255, true⟩ (fun _ => true) 1000).1 1100
        (some "sleepTime=5000".toList) ⟨255, true⟩).1 2000 ⟨255, true⟩
      (by decide) (by decide) (by decide) (by decide) (by decide)).1,
   by decide⟩

/-! ## The settings report: theorems -/

/-- The length of the settings report: 165 characters of punctuation and key
names, and the values. -/
theorem jsonStatus_length (c : conf) (localIP : IPAddress) :
    (jsonStatus c localIP).length =
      165 + c.mqttBrokerAddress.length + (sprintf_d c.mqttBrokerPort).length +
        c.mqttTopic.length + c.mqttUsername.length + c.mqttPassword.length + c.ssid.length +
        c.wifiPassword.length + (sprintf_d c.sleepTime).length + c.mqttClientId.length +
        c.address.length + c.netmask.length + localIP.toString.length := by
  simp only [jsonStatus, List.length_append]
  simp
  omega

/-- C14: the settings report of a record whose strings all fit their arrays
can be longer than the 400 bytes of `jsonStatus`: with every string at its
greatest length, the port 1883, a sleep time of 10 and the address
192.168.1.10 it takes 690 bytes with its terminator. -/
theorem jsonStatus_overruns_buffer :
    confFits fullLengthConf ∧
    JSON_STATUS_SIZE = 400 ∧
    (jsonStatus fullLengthConf ⟨192, 168, 1, 10⟩).length + 1 = 690 ∧
    JSON_STATUS_SIZE < (jsonStatus fullLengthConf ⟨192, 168, 1, 10⟩).length + 1 := by
  have hfit : confFits fullLengthConf := by
    simp [confFits, fullLengthConf, SSID_SIZE, PASSWORD_SIZE, ADDRESS_SIZE, USERNAME_SIZE,
      MQTT_TOPIC_SIZE, MQTT_CLIENTID_SIZE]
  have hlen : (jsonStatus fullLengthConf ⟨192, 168, 1, 10⟩).length + 1 = 690 := by
    rw [jsonStatus_length]
    have h1 : (sprintf_d fullLengthConf.mqttBrokerPort).length = 4 := by decide
    have h2 : (sprintf_d fullLengthConf.sleepTime).length = 2 := by decide
    have h3 : (IPAddress.toString ⟨192, 168, 1, 10⟩).length = 12 := by decide
    rw [h1, h2, h3]
    simp [fullLengthConf]
  have hsize : JSON_STATUS_SIZE = 400 := by decide
  refine ⟨hfit, hsize, hlen, ?_⟩
  rw [hlen, hsize]
  decide

end BatteryTest
